import Mathlib

/-!
Verification of a Chord-style DHT peer (Go source, single file).

The definitions below are a shallow embedding of the Go peer program:
ring arithmetic (`between`, `hsh`), the neighbor/file state of a peer,
the routing function `findSuccessor`, and the request handlers for
`JOIN`, `UPDATE`, `STORE` and `SUCC`. Network sends performed by a
handler are recorded as an explicit list of effects; remote calls made
while a handler runs (forwarded `SUCC` or `JOIN` requests) are passed
in as oracle functions. File-system blobs are modelled as a list of
(name, fully-written) pairs kept in the peer state.
-/

/-- Go global `var ringCapacity uint32 = 127`, as the value `int(ringCapacity)`
used by `between`. -/
def ringCapacity : Int := 127

/-- Go struct `node { Address string; ID int }`. -/
structure node where
  Address : String
  ID : Int
deriving DecidableEq, Repr

/-- Go `func newNode() node`: the unset sentinel, empty address and id -1. -/
def newNode : node :=
  { Address := "", ID := -1 }

/-- The adjusted high bound in Go `between`: inside the `high < low` block the
source does `high += perimeter`. -/
def betweenHigh (low high : Int) : Int :=
  if high < low then high + ringCapacity else high

/-- The adjusted middle point in Go `between`: inside the `high < low` block,
when additionally `n < low`, the source does `n += perimeter`. -/
def betweenN (low n high : Int) : Int :=
  if high < low ∧ n < low then n + ringCapacity else n

/-- Go `func between(low int, n int, high int) bool`: `low == high` returns
true at once; otherwise the wrap adjustments above are applied and the result
is `n > low && n < high` on the adjusted values. -/
def between (low n high : Int) : Bool :=
  if low = high then true
  else decide (betweenN low n high > low ∧ betweenN low n high < betweenHigh low high)

/-- UTF-8 encoding of one unicode code point, the byte content of Go
`[]byte(in)` for one rune. -/
def utf8Bytes (c : Nat) : List Nat :=
  if c < 128 then [c]
  else if c < 2048 then [192 + c / 64, 128 + c % 64]
  else if c < 65536 then [224 + c / 4096, 128 + c / 64 % 64, 128 + c % 64]
  else [240 + c / 262144, 128 + c / 4096 % 64, 128 + c / 64 % 64, 128 + c % 64]

/-- The byte sequence of Go `[]byte(in)` for a whole string. -/
def strBytes (s : String) : List Nat :=
  (s.data.map (fun c => utf8Bytes c.toNat)).flatten

/-- FNV-1a 32-bit offset basis (Go `hash/fnv`). -/
def fnvOffset32 : Nat := 2166136261

/-- FNV-1a 32-bit prime (Go `hash/fnv`). -/
def fnvPrime32 : Nat := 16777619

/-- FNV-1a 32-bit digest of a byte sequence, the value of
`hasher.Write(bytes); hasher.Sum32()` for Go `fnv.New32a()`. -/
def fnv32a (bytes : List Nat) : Nat :=
  bytes.foldl (fun h b => ((h ^^^ b) * fnvPrime32) % 4294967296) fnvOffset32

/-- Go `func hsh(in string) int`: `int(digest % ringCapacity)`. -/
def hsh (s : String) : Int :=
  ((fnv32a (strBytes s) % ringCapacity.toNat : Nat) : Int)

/-- The mutable globals of one peer: `self`, `successor`, `predecessor`,
the `storedFiles` map (name to key, as an association list with distinct
names), and the on-disk blob directory of the peer, modelled as a list of
(file name, fully-written) pairs. -/
structure PeerState where
  self : node
  successor : node
  predecessor : node
  storedFiles : List (String × Int)
  blobs : List (String × Bool)
deriving DecidableEq, Repr

/-- Go `func findSuccessor(id int) string`. The network call
`sendSuccessorRequest(id, successor.Address)` taken in the final branch is
passed in as the oracle `rem`, applied to the successor address and the id. -/
def findSuccessor (st : PeerState) (rem : String → Int → String) (id : Int) : String :=
  if st.predecessor.ID = -1 ∧ st.successor.ID = -1 then st.self.Address
  else if between st.predecessor.ID id st.self.ID = true ∨ id = st.self.ID then
    st.self.Address
  else if between st.self.ID id st.successor.ID = true ∨ id = st.successor.ID then
    st.successor.Address
  else rem st.successor.Address id

/-- One observable network send performed by a handler. -/
inductive Effect where
  | replySent (bytes : String)
  | updateSent (newSuccAddr newPredAddr peerAddr : String)
  | fileStored (fileName peerAddr : String)
  | connClosed
deriving DecidableEq, Repr

/-- Go map update `storedFiles[fileName] = fileKey` on the association-list
model: the new binding replaces any previous binding of the same name. -/
def mapInsert (name : String) (k : Int) (m : List (String × Int)) : List (String × Int) :=
  (name, k) :: m.filter (fun p => p.1 != name)

/-- Effect of Go `os.Create` / a finished write on the blob directory: the
named blob now exists, with the given fully-written flag, replacing any
previous blob of that name. -/
def setBlob (name : String) (complete : Bool) (blobs : List (String × Bool)) :
    List (String × Bool) :=
  (name, complete) :: blobs.filter (fun p => p.1 != name)

/-- One iteration of the transfer loop of `moveFilesToNewNode`: Go
`os.Remove(filePath(fileName))` followed by `delete(storedFiles, fileName)`. -/
def removeFileEverywhere (name : String) (st : PeerState) : PeerState :=
  { st with
    storedFiles := st.storedFiles.filter (fun p => p.1 != name),
    blobs := st.blobs.filter (fun p => p.1 != name) }

/-- Go `func moveFilesToNewNode(newNodeAddr string, newNodeID int)`: collects
the names of the stored files whose key is not `between(newNodeID, key,
self.ID)`, then for each such name stores the file at the new peer (returned
as the first component, in order) and removes the blob and the map entry. -/
def moveFilesToNewNode (newNodeAddr : String) (newNodeID : Int) (st : PeerState) :
    List String × PeerState :=
  let toTransfer :=
    (st.storedFiles.filter (fun p => !(between newNodeID p.2 st.self.ID))).map Prod.fst
  (toTransfer, toTransfer.foldl (fun s n => removeFileEverywhere n s) st)

/-- Go `func handleUpdateRequest` (UPDATE <new succ addr> <new pred addr>):
both slot updates run in order on the pair (successor, predecessor); a KEEP
token skips its block, a token equal to the own address resets both slots to
`newNode`, any other token overwrites its slot with (addr, hsh addr). The
handler writes nothing back, so its effect list is empty. -/
def handleUpdateRequest (self succ pred : node) (newSuccAddr newPredAddr : String) :
    List Effect × node × node :=
  let sp1 : node × node :=
    if newSuccAddr ≠ "KEEP" then
      if newSuccAddr = self.Address then (newNode, newNode)
      else ({ Address := newSuccAddr, ID := hsh newSuccAddr }, pred)
    else (succ, pred)
  let sp2 : node × node :=
    if newPredAddr ≠ "KEEP" then
      if newPredAddr = self.Address then (newNode, newNode)
      else (sp1.1, { Address := newPredAddr, ID := hsh newPredAddr })
    else sp1
  ([], sp2)

/-- Go `func handleJoinRequest` (JOIN <new node addr>). The oracle `rem`
stands for the network call inside `findSuccessor`; the oracle `fwd` stands
for `sendJoinRequest(newNodeAddr, target)`, returning the successor and
predecessor addresses parsed from the forwarded reply. Branches, in source
order: self-collision closes the connection; an alone receiver hands off
files, replies with its own address twice and adopts the newcomer as both
neighbors; a receiver that is the successor of the new id replies, sends
UPDATE <newAddr> KEEP to its predecessor, hands off files and adopts the
newcomer as predecessor; otherwise the request is forwarded and the reply
relayed. -/
def handleJoinRequest (rem : String → Int → String)
    (fwd : String → String → String × String)
    (st : PeerState) (newNodeAddr : String) : List Effect × PeerState :=
  if st.self.ID = hsh newNodeAddr then
    ([Effect.connClosed], st)
  else if st.successor.ID = -1 ∧ st.predecessor.ID = -1 then
    ((moveFilesToNewNode newNodeAddr (hsh newNodeAddr) st).1.map
        (fun n => Effect.fileStored n newNodeAddr) ++
      [Effect.replySent (st.self.Address ++ " " ++ st.self.Address ++ "\n")],
     { (moveFilesToNewNode newNodeAddr (hsh newNodeAddr) st).2 with
        successor := { Address := newNodeAddr, ID := hsh newNodeAddr },
        predecessor := { Address := newNodeAddr, ID := hsh newNodeAddr } })
  else if findSuccessor st rem (hsh newNodeAddr) = st.self.Address then
    ([Effect.replySent (st.self.Address ++ " " ++ st.predecessor.Address ++ "\n"),
      Effect.updateSent newNodeAddr "KEEP" st.predecessor.Address] ++
      (moveFilesToNewNode newNodeAddr (hsh newNodeAddr) st).1.map
        (fun n => Effect.fileStored n newNodeAddr),
     { (moveFilesToNewNode newNodeAddr (hsh newNodeAddr) st).2 with
        predecessor := { Address := newNodeAddr, ID := hsh newNodeAddr } })
  else
    ([Effect.replySent ((fwd newNodeAddr (findSuccessor st rem (hsh newNodeAddr))).1 ++
        " " ++ (fwd newNodeAddr (findSuccessor st rem (hsh newNodeAddr))).2 ++ "\n")],
     st)

/-- Outcome of the `io.CopyN(dstFile, reader, int64(fileSize))` call in the
STORE handler: either all declared bytes arrived or an I/O error occurred. -/
inductive StoreCopyResult where
  | ok
  | err
deriving DecidableEq, Repr

/-- Go `func handleStoreRequest` (STORE <file name> <file size>), with the
two fallible I/O steps passed in as parameters: `createOk` is the outcome of
`os.Create` (which on success makes the named blob exist empty, hence not
fully written), `copyResult` the outcome of `io.CopyN`. Only after a full
copy is the name registered in `storedFiles`; the source never removes the
created file on a copy error. -/
def handleStoreRequest (st : PeerState) (fileName : String) (fileSize : Int)
    (createOk : Bool) (copyResult : StoreCopyResult) : List Effect × PeerState :=
  if createOk = false then
    ([Effect.replySent "ERR Could not store file.\n"], st)
  else
    match copyResult with
    | StoreCopyResult.err =>
        ([Effect.replySent "OK\n", Effect.replySent "ERR Could not copy file.\n"],
         { st with blobs := setBlob fileName false st.blobs })
    | StoreCopyResult.ok =>
        ([Effect.replySent "OK\n", Effect.replySent "OK\n"],
         { st with
            blobs := setBlob fileName true st.blobs,
            storedFiles := mapInsert fileName (hsh fileName) st.storedFiles })

/-- Go `func handleSuccessorRequest` (SUCC <id>): writes the `findSuccessor`
answer followed by one newline; the returned string is exactly the bytes
written to the connection. -/
def handleSuccessorRequest (st : PeerState) (rem : String → Int → String)
    (id : Int) : String :=
  findSuccessor st rem id ++ "\n"

/-- Character-level model of `bufio.Reader.ReadString` with delimiter
newline: the consumed bytes up to and including the first newline. -/
def readLineAux : List Char → List Char
  | [] => []
  | c :: cs => if c = '\n' then [c] else c :: readLineAux cs

/-- Go `func sendSuccessorRequest` viewed from the reply side: given the
bytes the remote peer wrote, the function returns the first line including
its trailing newline, with no trimming. -/
def sendSuccessorRequest (wireReply : String) : String :=
  String.mk (readLineAux wireReply.data)

/-- Characterization of `between` on in-range inputs by modular distances:
used as the shared bridge for the ring-arithmetic claims. -/
theorem between_eq_true_iff_mod (low n high : Int)
    (h1 : 0 ≤ low) (h2 : low < 127) (h3 : 0 ≤ n) (h4 : n < 127)
    (h5 : 0 ≤ high) (h6 : high < 127) :
    between low n high = true ↔
      (low = high ∨
        (0 < (n - low) % 127 ∧ (n - low) % 127 < (high - low) % 127)) := by
  unfold between betweenN betweenHigh ringCapacity
  split_ifs with hEq hWrapN hWrapH hWrapH' <;>
    simp only [decide_eq_true_eq, true_iff, false_iff] <;>
    omega

/-- C3 counterexample: the spec claims `between(low, low, high)` is true for
all low and high, but the source returns false already at low 0, high 1. -/
theorem between_low_low_high_cex : between 0 0 1 = false := by decide

/-- C3 (amended): `between(low, low, high)` returns true exactly when
`low == high`; for distinct bounds the lower endpoint is excluded. -/
theorem between_low_low_high_iff_eq (low high : Int) :
    between low low high = true ↔ low = high := by
  unfold between betweenN betweenHigh ringCapacity
  split_ifs <;> simp_all

/-- C8: rotation invariance of `between` on in-range arguments; adding a
common offset d modulo the ring capacity to all three arguments does not
change the predicate. -/
theorem between_rotation (low n high d : Int)
    (h1 : 0 ≤ low) (h2 : low < ringCapacity) (h3 : 0 ≤ n) (h4 : n < ringCapacity)
    (h5 : 0 ≤ high) (h6 : high < ringCapacity) (h7 : 0 ≤ d) (h8 : d < ringCapacity) :
    between low n high
      = between ((low + d) % ringCapacity) ((n + d) % ringCapacity)
          ((high + d) % ringCapacity) := by
  simp only [ringCapacity] at *
  have e1 : 0 ≤ (low + d) % 127 := Int.emod_nonneg _ (by norm_num)
  have e2 : (low + d) % 127 < 127 := Int.emod_lt_of_pos _ (by norm_num)
  have e3 : 0 ≤ (n + d) % 127 := Int.emod_nonneg _ (by norm_num)
  have e4 : (n + d) % 127 < 127 := Int.emod_lt_of_pos _ (by norm_num)
  have e5 : 0 ≤ (high + d) % 127 := Int.emod_nonneg _ (by norm_num)
  have e6 : (high + d) % 127 < 127 := Int.emod_lt_of_pos _ (by norm_num)
  have A := between_eq_true_iff_mod low n high h1 h2 h3 h4 h5 h6
  have B := between_eq_true_iff_mod ((low + d) % 127) ((n + d) % 127)
    ((high + d) % 127) e1 e2 e3 e4 e5 e6
  rw [Bool.eq_iff_iff, A, B]
  omega

/-- C8 witness: rotation invariance instantiated at low 10, n 50, high 80,
offset 100. -/
theorem between_rotation_witness :
    between 10 50 80
      = between ((10 + 100) % ringCapacity) ((50 + 100) % ringCapacity)
          ((80 + 100) % ringCapacity) :=
  between_rotation 10 50 80 100 (by decide) (by decide) (by decide) (by decide)
    (by decide) (by decide) (by decide) (by decide)

/-- C9: the hash of any string is in the interval from 0 inclusive to the
ring capacity 127 exclusive; in particular it never equals the unset
sentinel id -1 of `newNode`. -/
theorem hsh_in_range_ne_unset (s : String) :
    0 ≤ hsh s ∧ hsh s < ringCapacity ∧ hsh s ≠ newNode.ID := by
  have h : fnv32a (strBytes s) % ringCapacity.toNat < ringCapacity.toNat :=
    Nat.mod_lt _ (by decide)
  have hid : newNode.ID = -1 := rfl
  unfold hsh ringCapacity at *
  rw [hid]
  refine ⟨?_, ?_, ?_⟩ <;> omega

/-- C2: the four cases of `findSuccessor` in their source order: alone
returns the own address; an id on the arc from the predecessor to self (or
equal to self) returns the own address; an id on the arc from self to the
successor (or equal to the successor) returns the successor address;
otherwise the reply of the SUCC request sent to the successor is returned. -/
theorem findSuccessor_cases (st : PeerState) (rem : String → Int → String) (id : Int)
    (hid : 0 ≤ id ∧ id < ringCapacity) :
    (st.predecessor.ID = -1 ∧ st.successor.ID = -1 →
      findSuccessor st rem id = st.self.Address) ∧
    (¬(st.predecessor.ID = -1 ∧ st.successor.ID = -1) →
      (between st.predecessor.ID id st.self.ID = true ∨ id = st.self.ID) →
      findSuccessor st rem id = st.self.Address) ∧
    (¬(st.predecessor.ID = -1 ∧ st.successor.ID = -1) →
      ¬(between st.predecessor.ID id st.self.ID = true ∨ id = st.self.ID) →
      (between st.self.ID id st.successor.ID = true ∨ id = st.successor.ID) →
      findSuccessor st rem id = st.successor.Address) ∧
    (¬(st.predecessor.ID = -1 ∧ st.successor.ID = -1) →
      ¬(between st.predecessor.ID id st.self.ID = true ∨ id = st.self.ID) →
      ¬(between st.self.ID id st.successor.ID = true ∨ id = st.successor.ID) →
      findSuccessor st rem id = rem st.successor.Address id) := by
  refine ⟨?_, ?_, ?_, ?_⟩
  · intro h1
    rw [findSuccessor, if_pos h1]
  · intro h1 h2
    rw [findSuccessor, if_neg h1, if_pos h2]
  · intro h1 h2 h3
    rw [findSuccessor, if_neg h1, if_neg h2, if_pos h3]
  · intro h1 h2 h3
    rw [findSuccessor, if_neg h1, if_neg h2, if_neg h3]

/-- C2 witness: a peer that is alone resolves id 5 to its own address. -/
theorem findSuccessor_cases_witness :
    findSuccessor
        { self := { Address := "addr-a", ID := 93 }, successor := newNode,
          predecessor := newNode, storedFiles := [], blobs := [] }
        (fun _ _ => "") 5
      = "addr-a" :=
  (findSuccessor_cases
    { self := { Address := "addr-a", ID := 93 }, successor := newNode,
      predecessor := newNode, storedFiles := [], blobs := [] }
    (fun _ _ => "") 5 (by decide)).1 (by decide)

/-- Helper: the transfer loop of `moveFilesToNewNode` leaves exactly the
stored-file entries whose name is not among the transferred names. -/
theorem foldl_remove_storedFiles (names : List String) (st : PeerState) :
    (names.foldl (fun s n => removeFileEverywhere n s) st).storedFiles
      = st.storedFiles.filter (fun p => !(names.contains p.1)) := by
  induction names generalizing st with
  | nil => simp
  | cons a t ih =>
    rw [List.foldl_cons, ih]
    show (st.storedFiles.filter (fun p => p.1 != a)).filter (fun p => !(t.contains p.1))
        = st.storedFiles.filter (fun p => !((a :: t).contains p.1))
    rw [List.filter_filter]
    refine List.filter_congr ?_
    intro p _
    by_cases hpa : p.1 = a <;> by_cases hpt : p.1 ∈ t <;> simp [bne, hpa, hpt]

/-- Helper: the transfer loop of `moveFilesToNewNode` leaves exactly the
blobs whose name is not among the transferred names. -/
theorem foldl_remove_blobs (names : List String) (st : PeerState) :
    (names.foldl (fun s n => removeFileEverywhere n s) st).blobs
      = st.blobs.filter (fun p => !(names.contains p.1)) := by
  induction names generalizing st with
  | nil => simp
  | cons a t ih =>
    rw [List.foldl_cons, ih]
    show (st.blobs.filter (fun p => p.1 != a)).filter (fun p => !(t.contains p.1))
        = st.blobs.filter (fun p => !((a :: t).contains p.1))
    rw [List.filter_filter]
    refine List.filter_congr ?_
    intro p _
    by_cases hpa : p.1 = a <;> by_cases hpt : p.1 ∈ t <;> simp [bne, hpa, hpt]

/-- Helper: in an association list with pairwise distinct names, a name
determines its key. -/
theorem keys_nodup_unique {l : List (String × Int)} (h : (l.map Prod.fst).Nodup)
    {n : String} {k k' : Int} (h1 : (n, k) ∈ l) (h2 : (n, k') ∈ l) : k = k' := by
  induction l with
  | nil => cases h1
  | cons p t ih =>
    rw [List.map_cons, List.nodup_cons] at h
    rcases List.mem_cons.mp h1 with hp1 | hp1 <;>
      rcases List.mem_cons.mp h2 with hp2 | hp2
    · exact congrArg Prod.snd (hp1.trans hp2.symm)
    · exfalso
      apply h.1
      have hm : n ∈ t.map Prod.fst := List.mem_map_of_mem Prod.fst hp2
      rwa [show n = p.1 from congrArg Prod.fst hp1] at hm
    · exfalso
      apply h.1
      have hm : n ∈ t.map Prod.fst := List.mem_map_of_mem Prod.fst hp1
      rwa [show n = p.1 from congrArg Prod.fst hp2] at hm
    · exact ih h.2 hp1 hp2

/-- C1: the JOIN handoff `moveFilesToNewNode` transfers exactly the stored
files whose key is not `between(newNodeID, key, self.ID)`; every transferred
file loses both its blob and its stored-files entry, and every file whose
key is between stays in `storedFiles` untouched. -/
theorem moveFilesToNewNode_spec (newNodeAddr : String) (newNodeID : Int) (st : PeerState)
    (hnd : (st.storedFiles.map Prod.fst).Nodup) :
    (∀ name, name ∈ (moveFilesToNewNode newNodeAddr newNodeID st).1 ↔
        ∃ k, (name, k) ∈ st.storedFiles ∧ between newNodeID k st.self.ID = false) ∧
    (∀ name, name ∈ (moveFilesToNewNode newNodeAddr newNodeID st).1 →
        (∀ k, (name, k) ∉ (moveFilesToNewNode newNodeAddr newNodeID st).2.storedFiles) ∧
        (∀ b, (name, b) ∉ (moveFilesToNewNode newNodeAddr newNodeID st).2.blobs)) ∧
    (∀ name k, (name, k) ∈ st.storedFiles → between newNodeID k st.self.ID = true →
        (name, k) ∈ (moveFilesToNewNode newNodeAddr newNodeID st).2.storedFiles) := by
  have e1 : (moveFilesToNewNode newNodeAddr newNodeID st).1
      = (st.storedFiles.filter
          (fun p => !(between newNodeID p.2 st.self.ID))).map Prod.fst := rfl
  have hmem : ∀ name, name ∈ (moveFilesToNewNode newNodeAddr newNodeID st).1 ↔
      ∃ k, (name, k) ∈ st.storedFiles ∧ between newNodeID k st.self.ID = false := by
    intro name
    rw [e1]
    constructor
    · intro hm
      rcases List.mem_map.mp hm with ⟨p, hp, hpe⟩
      rcases List.mem_filter.mp hp with ⟨hp1, hp2⟩
      refine ⟨p.2, ?_, ?_⟩
      · rw [← hpe, Prod.mk.eta]
        exact hp1
      · simpa using hp2
    · rintro ⟨k, hk1, hk2⟩
      exact List.mem_map.mpr ⟨(name, k), List.mem_filter.mpr ⟨hk1, by simp [hk2]⟩, rfl⟩
  have hsf : (moveFilesToNewNode newNodeAddr newNodeID st).2.storedFiles
      = st.storedFiles.filter
          (fun p => !((moveFilesToNewNode newNodeAddr newNodeID st).1.contains p.1)) :=
    foldl_remove_storedFiles (moveFilesToNewNode newNodeAddr newNodeID st).1 st
  have hbl : (moveFilesToNewNode newNodeAddr newNodeID st).2.blobs
      = st.blobs.filter
          (fun p => !((moveFilesToNewNode newNodeAddr newNodeID st).1.contains p.1)) :=
    foldl_remove_blobs (moveFilesToNewNode newNodeAddr newNodeID st).1 st
  refine ⟨hmem, ?_, ?_⟩
  · intro name hname
    constructor
    · intro k hk
      rw [hsf] at hk
      have h2 := (List.mem_filter.mp hk).2
      simp at h2
      exact h2 hname
    · intro b hb
      rw [hbl] at hb
      have h2 := (List.mem_filter.mp hb).2
      simp at h2
      exact h2 hname
  · intro name k hk hbet
    have hnotin : name ∉ (moveFilesToNewNode newNodeAddr newNodeID st).1 := by
      intro hname
      rcases (hmem name).mp hname with ⟨k', hk1', hk2'⟩
      have hkk : k' = k := keys_nodup_unique hnd hk1' hk
      rw [hkk, hbet] at hk2'
      cases hk2'
    rw [hsf]
    refine List.mem_filter.mpr ⟨hk, ?_⟩
    simp [hnotin]

/-- C1 witness: with self id 10 and newcomer id 80 the file with key 73
is handed off and the file with key 5 stays. -/
theorem moveFilesToNewNode_spec_witness :
    ("lo", 5) ∈ (moveFilesToNewNode "addr-b" 80
        { self := { Address := "addr-a", ID := 10 },
          successor := { Address := "addr-b", ID := 80 },
          predecessor := { Address := "addr-b", ID := 80 },
          storedFiles := [("hi", 73), ("lo", 5)],
          blobs := [("hi", true), ("lo", true)] }).2.storedFiles :=
  (moveFilesToNewNode_spec "addr-b" 80
    { self := { Address := "addr-a", ID := 10 },
      successor := { Address := "addr-b", ID := 80 },
      predecessor := { Address := "addr-b", ID := 80 },
      storedFiles := [("hi", 73), ("lo", 5)],
      blobs := [("hi", true), ("lo", true)] }
    (by decide)).2.2 "lo" 5 (by decide) (by decide)

/-- C4 counterexample: with self address "s", the request UPDATE s x does
not leave both neighbor slots unset; the predecessor slot ends bound to x,
because the second slot update runs after the clearing. -/
theorem handleUpdateRequest_both_cleared_cex :
    handleUpdateRequest { Address := "s", ID := 125 } { Address := "u", ID := 5 }
        { Address := "v", ID := 6 } "s" "x"
      ≠ ([], newNode, newNode) := by decide

/-- C4 (amended): the two tokens are processed in order (successor slot
first); a KEEP token leaves its slot unchanged, a token equal to the own
address clears both slots, and any other token binds its slot to the token
and its hash — so the end state matches the per-slot description whenever
the other token does not equal the self address, and the self-address
clearing gives the same end state whichever slot carries it as long as the
other token is KEEP. The handler sends nothing back. -/
theorem handleUpdateRequest_spec (self succ pred : node) (a b : String)
    (hs : self.Address ≠ "KEEP") :
    handleUpdateRequest self succ pred "KEEP" "KEEP" = ([], succ, pred) ∧
    handleUpdateRequest self succ pred self.Address "KEEP" = ([], newNode, newNode) ∧
    handleUpdateRequest self succ pred "KEEP" self.Address = ([], newNode, newNode) ∧
    (a ≠ "KEEP" → a ≠ self.Address →
      handleUpdateRequest self succ pred a "KEEP"
        = ([], { Address := a, ID := hsh a }, pred)) ∧
    (b ≠ "KEEP" → b ≠ self.Address →
      handleUpdateRequest self succ pred "KEEP" b
        = ([], succ, { Address := b, ID := hsh b })) ∧
    (a ≠ "KEEP" → a ≠ self.Address → b ≠ "KEEP" → b ≠ self.Address →
      handleUpdateRequest self succ pred a b
        = ([], { Address := a, ID := hsh a }, { Address := b, ID := hsh b })) ∧
    (∀ l, Effect.replySent l ∉ (handleUpdateRequest self succ pred a b).1) := by
  refine ⟨?_, ?_, ?_, ?_, ?_, ?_, ?_⟩
  · simp [handleUpdateRequest]
  · simp [handleUpdateRequest, hs]
  · simp [handleUpdateRequest, hs]
  · intro h1 h2
    simp [handleUpdateRequest, h1, h2]
  · intro h1 h2
    simp [handleUpdateRequest, h1, h2]
  · intro h1 h2 h3 h4
    simp [handleUpdateRequest, h1, h2, h3, h4]
  · intro l
    simp [handleUpdateRequest]

/-- C4 witness: UPDATE w KEEP at a peer with self address s binds the
successor slot to w and keeps the predecessor slot. -/
theorem handleUpdateRequest_spec_witness :
    handleUpdateRequest { Address := "s", ID := 125 } { Address := "u", ID := 5 }
        { Address := "v", ID := 6 } "w" "KEEP"
      = ([], { Address := "w", ID := hsh "w" }, { Address := "v", ID := 6 }) :=
  (handleUpdateRequest_spec { Address := "s", ID := 125 } { Address := "u", ID := 5 }
    { Address := "v", ID := 6 } "w" "y" (by decide)).2.2.2.1 (by decide) (by decide)

/-- C7: a JOIN whose newcomer hashes to the own id only closes the
connection; no reply, no update, no file transfer is sent and the whole
peer state is unchanged. -/
theorem handleJoinRequest_self_collision (rem : String → Int → String)
    (fwd : String → String → String × String) (st : PeerState) (newNodeAddr : String)
    (h : hsh newNodeAddr = st.self.ID) :
    (handleJoinRequest rem fwd st newNodeAddr).2 = st ∧
    (∀ l, Effect.replySent l ∉ (handleJoinRequest rem fwd st newNodeAddr).1) ∧
    (∀ a b c, Effect.updateSent a b c ∉ (handleJoinRequest rem fwd st newNodeAddr).1) ∧
    (∀ n p, Effect.fileStored n p ∉ (handleJoinRequest rem fwd st newNodeAddr).1) ∧
    Effect.connClosed ∈ (handleJoinRequest rem fwd st newNodeAddr).1 := by
  have e : handleJoinRequest rem fwd st newNodeAddr = ([Effect.connClosed], st) := by
    rw [handleJoinRequest, if_pos h.symm]
  rw [e]
  simp

/-- C7 witness: the self-collision branch taken at a concrete peer whose id
is the hash of the joining address. -/
theorem handleJoinRequest_self_collision_witness :
    (handleJoinRequest (fun _ _ => "") (fun _ _ => ("", ""))
        { self := { Address := "addr-x", ID := hsh "x" },
          successor := { Address := "addr-b", ID := 80 },
          predecessor := { Address := "addr-b", ID := 80 },
          storedFiles := [], blobs := [] } "x").2
      = { self := { Address := "addr-x", ID := hsh "x" },
          successor := { Address := "addr-b", ID := 80 },
          predecessor := { Address := "addr-b", ID := 80 },
          storedFiles := [], blobs := [] } :=
  (handleJoinRequest_self_collision (fun _ _ => "") (fun _ _ => ("", ""))
    { self := { Address := "addr-x", ID := hsh "x" },
      successor := { Address := "addr-b", ID := 80 },
      predecessor := { Address := "addr-b", ID := 80 },
      storedFiles := [], blobs := [] } "x" rfl).1

/-- C5: in the branch where the receiver is the successor of the newcomer,
the handler sends exactly one UPDATE, addressed to the predecessor of the
receiver, carrying the newcomer address as the new-successor token and KEEP
as the new-predecessor token. -/
theorem handleJoinRequest_sends_update (rem : String → Int → String)
    (fwd : String → String → String × String) (st : PeerState) (newNodeAddr : String)
    (h1 : st.self.ID ≠ hsh newNodeAddr)
    (h2 : ¬(st.successor.ID = -1 ∧ st.predecessor.ID = -1))
    (h3 : findSuccessor st rem (hsh newNodeAddr) = st.self.Address) :
    Effect.updateSent newNodeAddr "KEEP" st.predecessor.Address
        ∈ (handleJoinRequest rem fwd st newNodeAddr).1 ∧
    (∀ a b c, Effect.updateSent a b c ∈ (handleJoinRequest rem fwd st newNodeAddr).1 →
      a = newNodeAddr ∧ b = "KEEP" ∧ c = st.predecessor.Address) := by
  have e : (handleJoinRequest rem fwd st newNodeAddr).1
      = [Effect.replySent (st.self.Address ++ " " ++ st.predecessor.Address ++ "\n"),
         Effect.updateSent newNodeAddr "KEEP" st.predecessor.Address] ++
        (moveFilesToNewNode newNodeAddr (hsh newNodeAddr) st).1.map
          (fun n => Effect.fileStored n newNodeAddr) := by
    rw [handleJoinRequest, if_neg h1, if_neg h2, if_pos h3]
  rw [e]
  constructor
  · simp
  · intro a b c hm
    simp at hm
    exact hm

/-- C5 witness: a concrete receiver that is the successor of the newcomer
with address n sends UPDATE n KEEP to its predecessor. -/
theorem handleJoinRequest_sends_update_witness :
    Effect.updateSent "n" "KEEP" "addr-pred"
      ∈ (handleJoinRequest (fun _ _ => "") (fun _ _ => ("", ""))
          { self := { Address := "addr-self", ID := 50 },
            successor := { Address := "addr-succ", ID := 60 },
            predecessor := { Address := "addr-pred", ID := 48 },
            storedFiles := [], blobs := [] } "n").1 :=
  (handleJoinRequest_sends_update (fun _ _ => "") (fun _ _ => ("", ""))
    { self := { Address := "addr-self", ID := 50 },
      successor := { Address := "addr-succ", ID := 60 },
      predecessor := { Address := "addr-pred", ID := 48 },
      storedFiles := [], blobs := [] } "n"
    (by decide) (by decide) (by decide)).1

/-- C6: evaluation of the STORE handler at a failing copy. The reply is the
ERR line and no stored-files entry is added, but the blob created by
os.Create stays behind half written: the source never removes it, so the
partial state is not fully discarded. -/
theorem handleStoreRequest_copy_error_keeps_partial_blob :
    ((handleStoreRequest
        { self := { Address := "addr-a", ID := 10 }, successor := newNode,
          predecessor := newNode, storedFiles := [], blobs := [] }
        "f" 10 true StoreCopyResult.err).2.storedFiles = []) ∧
    ("f", false) ∈ (handleStoreRequest
        { self := { Address := "addr-a", ID := 10 }, successor := newNode,
          predecessor := newNode, storedFiles := [], blobs := [] }
        "f" 10 true StoreCopyResult.err).2.blobs ∧
    Effect.replySent "ERR Could not copy file.\n"
      ∈ (handleStoreRequest
        { self := { Address := "addr-a", ID := 10 }, successor := newNode,
          predecessor := newNode, storedFiles := [], blobs := [] }
        "f" 10 true StoreCopyResult.err).1 := by decide

/-- Helper: reading one line from bytes that are a newline-free prefix
followed by a newline consumes everything including that newline. -/
theorem readLineAux_append_newline (l : List Char) (h : '\n' ∉ l) :
    readLineAux (l ++ ['\n']) = l ++ ['\n'] := by
  induction l with
  | nil => simp [readLineAux]
  | cons c cs ih =>
    have hc : c ≠ '\n' := fun hh => h (hh ▸ List.mem_cons_self c cs)
    have hcs : '\n' ∉ cs := fun hh => h (List.mem_cons_of_mem c hh)
    simp only [List.cons_append, readLineAux, if_neg hc]
    exact congrArg (fun t => c :: t) (ih hcs)

/-- Helper: `sendSuccessorRequest` returns the remote reply line with its
trailing newline intact. -/
theorem sendSuccessorRequest_line (a : String) (h : '\n' ∉ a.data) :
    sendSuccessorRequest (a ++ "\n") = a ++ "\n" := by
  unfold sendSuccessorRequest
  have hd : (a ++ "\n").data = a.data ++ ['\n'] := rfl
  rw [hd, readLineAux_append_newline a.data h, ← hd]

/-- C10: when `findSuccessor` resolves by forwarding to a remote peer that
answers locally with address a, the returned string is the full reply line
a plus newline (untrimmed), which differs from the bare address a that the
local cases return, and the SUCC handler relays it with a second newline. -/
theorem findSuccessor_forward_untrimmed (stL stR : PeerState)
    (remR : String → Int → String) (id : Int) (a : String)
    (hAl : ¬(stL.predecessor.ID = -1 ∧ stL.successor.ID = -1))
    (hB1 : ¬(between stL.predecessor.ID id stL.self.ID = true ∨ id = stL.self.ID))
    (hB2 : ¬(between stL.self.ID id stL.successor.ID = true ∨ id = stL.successor.ID))
    (hR : findSuccessor stR remR id = a)
    (hNL : '\n' ∉ a.data) :
    findSuccessor stL
        (fun _ i => sendSuccessorRequest (handleSuccessorRequest stR remR i)) id
      = a ++ "\n" ∧
    findSuccessor stL
        (fun _ i => sendSuccessorRequest (handleSuccessorRequest stR remR i)) id
      ≠ a ∧
    handleSuccessorRequest stL
        (fun _ i => sendSuccessorRequest (handleSuccessorRequest stR remR i)) id
      = a ++ "\n" ++ "\n" := by
  have e : findSuccessor stL
        (fun _ i => sendSuccessorRequest (handleSuccessorRequest stR remR i)) id
      = sendSuccessorRequest (handleSuccessorRequest stR remR id) := by
    rw [findSuccessor, if_neg hAl, if_neg hB1, if_neg hB2]
  have e2 : handleSuccessorRequest stR remR id = a ++ "\n" := by
    rw [handleSuccessorRequest, hR]
  have e3 : findSuccessor stL
        (fun _ i => sendSuccessorRequest (handleSuccessorRequest stR remR i)) id
      = a ++ "\n" := by
    rw [e, e2, sendSuccessorRequest_line a hNL]
  refine ⟨e3, ?_, ?_⟩
  · rw [e3]
    intro hco
    have hlen := congrArg String.length hco
    have h1 : ("\n" : String).length = 1 := rfl
    rw [String.length_append, h1] at hlen
    omega
  · rw [handleSuccessorRequest, e3]

/-- C10 witness: three peers with ids 10, 40, 80; a lookup of id 50 at the
peer with id 10 forwards to id 40, which resolves locally to the address of
id 80; the forwarded result keeps the newline. -/
theorem findSuccessor_forward_untrimmed_witness :
    findSuccessor
        { self := { Address := "addr-a", ID := 10 },
          successor := { Address := "addr-c", ID := 40 },
          predecessor := { Address := "addr-b", ID := 80 },
          storedFiles := [], blobs := [] }
        (fun _ i => sendSuccessorRequest (handleSuccessorRequest
          { self := { Address := "addr-c", ID := 40 },
            successor := { Address := "addr-b", ID := 80 },
            predecessor := { Address := "addr-a", ID := 10 },
            storedFiles := [], blobs := [] } (fun _ _ => "") i)) 50
      = "addr-b" ++ "\n" :=
  (findSuccessor_forward_untrimmed
    { self := { Address := "addr-a", ID := 10 },
      successor := { Address := "addr-c", ID := 40 },
      predecessor := { Address := "addr-b", ID := 80 },
      storedFiles := [], blobs := [] }
    { self := { Address := "addr-c", ID := 40 },
      successor := { Address := "addr-b", ID := 80 },
      predecessor := { Address := "addr-a", ID := 10 },
      storedFiles := [], blobs := [] }
    (fun _ _ => "") 50 "addr-b"
    (by decide) (by decide) (by decide) (by decide) (by decide)).1
